import Mathlib

/-!
Shallow embedding of the bikeshare ingestion pipeline core:
the record cleaner (data_ingestion/utils/data_cleaner.py),
the S3 downloader (data_ingestion/extractors/s3_downloader.py),
and the ClickHouse bulk loader (scripts/load_to_clickhouse.py).

Pandas cells are modelled by the inductive type Cell: a cell is either
missing (NaN/NaT/None), a string, a parsed timestamp (seconds since epoch,
as an integer) or a parsed numeric value.  The timestamp and numeric
parsers of pandas (to_datetime / to_numeric with errors coerced to
missing) are abstracted as parameters of type String to Option Int.
A DataFrame is a Frame: the list of column names present, plus the rows;
each row is a record with one Cell per known column, and a column that is
absent from the column list is simply ignored by every operation, exactly
as the source guards every step with a membership test on df.columns.
-/

/-- Value held by one DataFrame cell. -/
inductive Cell where
  | na : Cell
  | str : String → Cell
  | ts : Int → Cell
  | num : Int → Cell
deriving DecidableEq, Repr

/-- One raw or cleaned record, with one cell per known column name. -/
structure Row where
  ride_id : Cell := Cell.na
  rideable_type : Cell := Cell.na
  started_at : Cell := Cell.na
  ended_at : Cell := Cell.na
  start_station_name : Cell := Cell.na
  start_station_id : Cell := Cell.na
  end_station_name : Cell := Cell.na
  end_station_id : Cell := Cell.na
  start_lat : Cell := Cell.na
  start_lng : Cell := Cell.na
  end_lat : Cell := Cell.na
  end_lng : Cell := Cell.na
  member_casual : Cell := Cell.na
  source_file : Cell := Cell.na
  loaded_at : Cell := Cell.na
deriving DecidableEq, Repr

/-- DataFrame: the column names present, plus the rows. -/
structure Frame where
  cols : List String
  rows : List Row
deriving DecidableEq, Repr

/-- Field lookup by column name, for stating properties about named columns. -/
def getField (c : String) (r : Row) : Cell :=
  if c = "ride_id" then r.ride_id
  else if c = "rideable_type" then r.rideable_type
  else if c = "started_at" then r.started_at
  else if c = "ended_at" then r.ended_at
  else if c = "start_station_name" then r.start_station_name
  else if c = "start_station_id" then r.start_station_id
  else if c = "end_station_name" then r.end_station_name
  else if c = "end_station_id" then r.end_station_id
  else if c = "start_lat" then r.start_lat
  else if c = "start_lng" then r.start_lng
  else if c = "end_lat" then r.end_lat
  else if c = "end_lng" then r.end_lng
  else if c = "member_casual" then r.member_casual
  else if c = "source_file" then r.source_file
  else if c = "loaded_at" then r.loaded_at
  else Cell.na

/-- BikeShareCleaner.REQUIRED_COLUMNS. -/
def REQUIRED_COLUMNS : List String :=
  ["ride_id", "rideable_type", "started_at", "ended_at", "member_casual"]

/-- BikeShareCleaner.STRING_COLUMNS. -/
def STRING_COLUMNS : List String :=
  ["ride_id", "rideable_type", "start_station_name", "start_station_id",
   "end_station_name", "end_station_id", "member_casual", "source_file"]

/-- Models df[col].fillna("").astype(str): a missing value becomes the empty
string, a string stays itself, any other value is rendered as text. -/
def coerceStr : Cell → Cell
  | Cell.na => Cell.str ""
  | Cell.str s => Cell.str s
  | Cell.ts t => Cell.str (toString t)
  | Cell.num q => Cell.str (toString q)

/-- Models pd.to_datetime(df[col], errors coerced): strings go through the
abstract parser, unparseable and missing values become missing, an already
numeric cell is read as an epoch value. -/
def toDatetimeCell (pTs : String → Option Int) : Cell → Cell
  | Cell.na => Cell.na
  | Cell.str s => match pTs s with
      | some t => Cell.ts t
      | none => Cell.na
  | Cell.ts t => Cell.ts t
  | Cell.num q => Cell.ts q

/-- Models pd.to_numeric(df[col], errors coerced). -/
def toNumericCell (pNum : String → Option Int) : Cell → Cell
  | Cell.na => Cell.na
  | Cell.str s => match pNum s with
      | some q => Cell.num q
      | none => Cell.na
  | Cell.ts t => Cell.num t
  | Cell.num q => Cell.num q

/-- Models Series.notna() on one cell. -/
def notna : Cell → Bool
  | Cell.na => false
  | _ => true

/-- Models df["started_at"] < df["ended_at"]: comparisons involving a
missing timestamp are false, as in pandas. -/
def cellLt : Cell → Cell → Bool
  | Cell.ts a, Cell.ts b => a < b
  | _, _ => false

/-- Models (df["ended_at"] - df["started_at"]).dt.total_seconds() being
inside [60, 86400]; with a missing endpoint the difference is NaN and both
comparisons are false, as in pandas. -/
def durOk (r : Row) : Bool :=
  match r.started_at, r.ended_at with
  | Cell.ts a, Cell.ts b => 60 ≤ b - a && b - a ≤ 86400
  | _, _ => false

/-- The string-coercion loop of BikeShareCleaner.clean, unrolled over
STRING_COLUMNS: for each string column present in df.columns, the cell is
replaced by its fillna("").astype(str) coercion. -/
def coerceStringCols (cols : List String) (r : Row) : Row :=
  { r with
    ride_id := if cols.contains "ride_id" then coerceStr r.ride_id else r.ride_id
    rideable_type := if cols.contains "rideable_type" then coerceStr r.rideable_type else r.rideable_type
    start_station_name := if cols.contains "start_station_name" then coerceStr r.start_station_name else r.start_station_name
    start_station_id := if cols.contains "start_station_id" then coerceStr r.start_station_id else r.start_station_id
    end_station_name := if cols.contains "end_station_name" then coerceStr r.end_station_name else r.end_station_name
    end_station_id := if cols.contains "end_station_id" then coerceStr r.end_station_id else r.end_station_id
    member_casual := if cols.contains "member_casual" then coerceStr r.member_casual else r.member_casual
    source_file := if cols.contains "source_file" then coerceStr r.source_file else r.source_file }

/-- The datetime-parsing loop of BikeShareCleaner.clean, unrolled over
["started_at", "ended_at"]. -/
def parseDatetimeCols (pTs : String → Option Int) (cols : List String) (r : Row) : Row :=
  { r with
    started_at := if cols.contains "started_at" then toDatetimeCell pTs r.started_at else r.started_at
    ended_at := if cols.contains "ended_at" then toDatetimeCell pTs r.ended_at else r.ended_at }

/-- The numeric-parsing loop of BikeShareCleaner.clean, unrolled over
["start_lat", "start_lng", "end_lat", "end_lng"]. -/
def parseNumericCols (pNum : String → Option Int) (cols : List String) (r : Row) : Row :=
  { r with
    start_lat := if cols.contains "start_lat" then toNumericCell pNum r.start_lat else r.start_lat
    start_lng := if cols.contains "start_lng" then toNumericCell pNum r.start_lng else r.start_lng
    end_lat := if cols.contains "end_lat" then toNumericCell pNum r.end_lat else r.end_lat
    end_lng := if cols.contains "end_lng" then toNumericCell pNum r.end_lng else r.end_lng }

/-- BikeShareCleaner.clean.  Mirrors the source block for block: empty
input returned as is; string coercion; datetime parsing; numeric parsing;
the required-column drop loop, one filter per required column present
(unrolled in REQUIRED_COLUMNS order); the non-causal drop; the duration
drop.  The two time filters run only when both time columns are present,
exactly as the source guards them. -/
def clean (pTs pNum : String → Option Int) (f : Frame) : Frame :=
  if f.rows.isEmpty then f
  else
    let rows := f.rows.map (coerceStringCols f.cols)
    let rows := rows.map (parseDatetimeCols pTs f.cols)
    let rows := rows.map (parseNumericCols pNum f.cols)
    let rows := if f.cols.contains "ride_id" then rows.filter (fun r => notna r.ride_id) else rows
    let rows := if f.cols.contains "rideable_type" then rows.filter (fun r => notna r.rideable_type) else rows
    let rows := if f.cols.contains "started_at" then rows.filter (fun r => notna r.started_at) else rows
    let rows := if f.cols.contains "ended_at" then rows.filter (fun r => notna r.ended_at) else rows
    let rows := if f.cols.contains "member_casual" then rows.filter (fun r => notna r.member_casual) else rows
    let rows := if f.cols.contains "started_at" && f.cols.contains "ended_at"
      then rows.filter (fun r => cellLt r.started_at r.ended_at) else rows
    let rows := if f.cols.contains "started_at" && f.cols.contains "ended_at"
      then rows.filter durOk else rows
    ⟨f.cols, rows⟩

/-- BikeShareCleaner.validate_schema: true iff no required column is
missing from the column set. -/
def validate_schema (cols : List String) : Bool :=
  REQUIRED_COLUMNS.all (fun c => cols.contains c)

/-!
Archive catalog resolver: S3BikeShareDownloader.get_file_links.  The HTTP
listing is abstracted as the list of Key texts it yields, in index order.
String tests are carried out on the character lists so that every
definition evaluates by kernel reduction.
-/

/-- Python str.startswith. -/
def strStartsWith (s p : String) : Bool :=
  decide (s.data.take p.data.length = p.data)

/-- Python str.endswith; when the candidate suffix is longer than the
string the dropped list keeps its length and the comparison fails. -/
def strEndsWith (s p : String) : Bool :=
  decide (s.data.drop (s.data.length - p.data.length) = p.data)

/-- Replacement of every occurrence of a pattern, fuel-indexed: each step
consumes at least one character of the text, so the text length is enough
fuel. -/
def strReplaceAux (pat rep : List Char) : Nat → List Char → List Char
  | 0, l => l
  | _ + 1, [] => []
  | fuel + 1, c :: cs =>
    if pat ≠ [] && decide ((c :: cs).take pat.length = pat) then
      rep ++ strReplaceAux pat rep fuel ((c :: cs).drop pat.length)
    else c :: strReplaceAux pat rep fuel cs

/-- Python str.replace: replace every occurrence of the pattern. -/
def strReplace (s pat rep : String) : String :=
  ⟨strReplaceAux pat.data rep.data s.data.length s.data⟩

/-- The Key filter of get_file_links: keep keys starting with "JC" and
ending with ".zip", in listing order. -/
def filterKeys (keys : List String) : List String :=
  keys.filter (fun k => strStartsWith k "JC" && strEndsWith k ".zip")

/-- Index of the first occurrence of a key in a list (Python list.index). -/
def indexOfKey : List String → String → Nat
  | [], _ => 0
  | k :: ks, s => if k = s then 0 else indexOfKey ks s + 1

/-- S3BikeShareDownloader.get_file_links on a given listing: filter the
keys, then return the slice from the configured start key onward if that
key occurs in the filtered list, and the empty list otherwise. -/
def get_file_links (startFrom : String) (keys : List String) : List String :=
  let ks := filterKeys keys
  if startFrom ∈ ks then ks.drop (indexOfKey ks startFrom) else []

/-!
Fetcher and unpacker: S3BikeShareDownloader.download_file / extract_zip /
download_all.  The local data directory is flat, so the filesystem is the
list of file names present, each tagged with a completeness flag: true for
a fully written file, false for a file whose write was interrupted.  The
network is an oracle per request: the transfer either succeeds, or raises
after the destination file has started being written, or raises before any
byte was written.
-/

/-- Local data directory: file names present, tagged complete or not. -/
abbrev FS := List (String × Bool)

/-- Outcome of one HTTP GET for an object. -/
inductive DlResult where
  | ok : DlResult
  | errAfterWrite : DlResult
  | errBeforeWrite : DlResult
deriving DecidableEq, Repr

/-- Path exists on disk. -/
def fsHas : FS → String → Bool
  | [], _ => false
  | e :: t, p => if e.1 = p then true else fsHas t p

/-- Remove a path from disk (Path.unlink). -/
def fsErase : FS → String → FS
  | [], _ => []
  | e :: t, p => if e.1 = p then fsErase t p else e :: fsErase t p

/-- Write a file at a path, overwriting any previous one; the flag records
whether the write ran to completion. -/
def fsWrite (fs : FS) (p : String) (full : Bool) : FS :=
  (p, full) :: fsErase fs p

/-- S3BikeShareDownloader.download_file for one key: return the CSV path
without any request if it exists, else the ZIP path without any request if
it exists, else perform one streamed GET, returning the ZIP path on
success and None on error.  The third component counts HTTP requests
made. -/
def download_file (net : DlResult) (fs : FS) (fileName : String) :
    Option String × FS × Nat :=
  let zipPath := fileName
  let csvPath := strReplace fileName ".zip" ".csv"
  if fsHas fs csvPath then (some csvPath, fs, 0)
  else if fsHas fs zipPath then (some zipPath, fs, 0)
  else
    match net with
    | DlResult.ok => (some zipPath, fsWrite fs zipPath true, 1)
    | DlResult.errAfterWrite => (none, fsWrite fs zipPath false, 1)
    | DlResult.errBeforeWrite => (none, fs, 1)

/-- S3BikeShareDownloader.extract_zip.  The container content is the
member name list of the ZIP, and one oracle flag says whether the
extraction itself raises.  Mirrors the source paths: missing input, CSV
already extracted (delete the ZIP, return the CSV), no payload member
found, successful extract with rename then deletion of the ZIP, and
extraction error leaving everything in place. -/
def extract_zip (fs : FS) (zipPath : String) (members : List String)
    (extractOk : Bool) : Option String × FS :=
  if ¬ fsHas fs zipPath then (none, fs)
  else
    let csvName := strReplace zipPath ".zip" ".csv"
    if fsHas fs csvName then (some csvName, fsErase fs zipPath)
    else
      match members.filter (fun n => strEndsWith n ".csv" && !strStartsWith n "__MACOSX") with
      | [] => (none, fs)
      | m :: _ =>
        if extractOk then
          let fs1 := fsWrite fs m true
          let fs2 := if m ≠ csvName then fsWrite (fsErase fs1 m) csvName true else fs1
          (some csvName, fsErase fs2 zipPath)
        else (none, fs)

/-- Python truthiness of the Optional[int] limit argument. -/
def pyTruthy : Option Nat → Bool
  | none => false
  | some n => n != 0

/-- The limit step of download_all: file_links[:limit] when the limit is
truthy, the whole list otherwise. -/
def limitLinks (limit : Option Nat) (links : List String) : List String :=
  if pyTruthy limit then links.take (limit.getD 0) else links

/-- Sequence of per-key downloads over a list of keys, each key hitting
the network oracle once, threading the filesystem; returns the per-key
results in order. -/
def downloadFold (nets : String → DlResult) (fs : FS) :
    List String → List (String × Option String) × FS
  | [] => ([], fs)
  | k :: ks =>
    let r := download_file (nets k) fs k
    let rest := downloadFold nets r.2.1 ks
    ((k, r.1) :: rest.1, rest.2)

/-- S3BikeShareDownloader.download_all, given the candidate list produced
by get_file_links: apply the truthiness-guarded limit, then download every
remaining candidate. -/
def download_all (nets : String → DlResult) (fs : FS) (limit : Option Nat)
    (fileLinks : List String) : List (String × Option String) × FS :=
  downloadFold nets fs (limitLinks limit fileLinks)

/-!
Bulk loader: scripts/load_to_clickhouse.py.  The raw_rides table is the
list of its rows; insert_df appends a cleaned chunk.  Store-side failures
are oracles: one flag for the duplicate-check query raising, one for the
insert raising.  A raised insert propagates out of the per-file load,
modelled with Except.
-/

/-- The value read back from the String column source_file of a stored
row; a non-string cell reads as the column default, the empty string. -/
def sourceFileVal (r : Row) : String :=
  match r.source_file with
  | Cell.str s => s
  | _ => ""

/-- check_file_already_loaded: create the table if needed, then ask
whether any stored row has source_file equal to this file name; any
exception in that block is caught and the function returns False. -/
def check_file_already_loaded (queryFails : Bool) (store : List Row)
    (filename : String) : Bool :=
  if queryFails then false
  else store.any (fun r => sourceFileVal r = filename)

/-- Fuel-indexed splitting of the row list into consecutive chunks; each
step consumes at least one row, so the list length is enough fuel. -/
def chunksOfAux (n : Nat) : Nat → List Row → List (List Row)
  | 0, _ => []
  | _, [] => []
  | fuel + 1, x :: xs =>
    (x :: xs).take (max n 1) :: chunksOfAux n fuel ((x :: xs).drop (max n 1))

/-- pd.read_csv with chunksize: the rows of the file in consecutive
chunks of the batch size, in file order. -/
def chunksOf (n : Nat) (l : List Row) : List (List Row) :=
  chunksOfAux n l.length l

/-- Models chunk["source_file"] = filename: the column is set on every
row and added to the column list when not already present. -/
def addSourceFile (f : Frame) (filename : String) : Frame :=
  ⟨if f.cols.contains "source_file" then f.cols else f.cols ++ ["source_file"],
   f.rows.map (fun r => { r with source_file := Cell.str filename })⟩

/-- Models chunk["loaded_at"] = pd.Timestamp.now(), the timestamp value
being supplied by the caller. -/
def addLoadedAt (f : Frame) (now : Cell) : Frame :=
  ⟨if f.cols.contains "loaded_at" then f.cols else f.cols ++ ["loaded_at"],
   f.rows.map (fun r => { r with loaded_at := now })⟩

/-- The per-chunk loop of load_csv_to_clickhouse: stamp provenance, clean,
skip the insert when the cleaned chunk is empty, otherwise insert (which
appends the cleaned rows to the table, or raises when the insert oracle
says so) and add the cleaned row count to the running total. -/
def loadChunks (pTs pNum : String → Option Int) (now : Cell)
    (insertFails : Bool) (filename : String) (cols : List String) :
    List (List Row) → Nat → List Row → Except Unit (Nat × List Row)
  | [], total, store => Except.ok (total, store)
  | chunk :: rest, total, store =>
    let cleaned := clean pTs pNum (addLoadedAt (addSourceFile ⟨cols, chunk⟩ filename) now)
    if cleaned.rows.length = 0 then
      loadChunks pTs pNum now insertFails filename cols rest total store
    else if insertFails then Except.error ()
    else
      loadChunks pTs pNum now insertFails filename cols rest
        (total + cleaned.rows.length) (store ++ cleaned.rows)

/-- load_csv_to_clickhouse on one file, the file content being the frame
read from the CSV.  When skip_duplicates holds and the duplicate check
reports the file as present, return 0 having written nothing; otherwise
process the chunks in file order. -/
def load_csv_to_clickhouse (pTs pNum : String → Option Int) (now : Cell)
    (insertFails dupCheckFails : Bool) (store : List Row) (csv : Frame)
    (filename : String) (batchSize : Nat) (skipDuplicates : Bool) :
    Except Unit (Nat × List Row) :=
  if skipDuplicates && check_file_already_loaded dupCheckFails store filename then
    Except.ok (0, store)
  else
    loadChunks pTs pNum now insertFails filename csv.cols
      (chunksOf batchSize csv.rows) 0 store

/-!
Concrete instances used by the witness and counterexample theorems.
-/

/-- Timestamp parser used on the concrete inputs below. -/
def pTsEx : String → Option Int :=
  fun s => if s = "100" then some 100 else if s = "400" then some 400 else none

/-- Raw record whose ride_id is missing (null in the CSV) and whose other
required fields are valid: five-minute trip, so duration 300 seconds. -/
def rowNoRideId : Row :=
  { ride_id := Cell.na
    rideable_type := Cell.str "classic_bike"
    started_at := Cell.str "100"
    ended_at := Cell.str "400"
    member_casual := Cell.str "member" }

/-- One-row batch containing rowNoRideId, with all required columns. -/
def frameNoRideId : Frame := ⟨REQUIRED_COLUMNS, [rowNoRideId]⟩

/-- Fully valid raw record. -/
def rowValid : Row :=
  { ride_id := Cell.str "r9"
    rideable_type := Cell.str "classic_bike"
    started_at := Cell.str "100"
    ended_at := Cell.str "400"
    member_casual := Cell.str "member" }

/-- One-row file content with all required columns. -/
def frameValid : Frame := ⟨REQUIRED_COLUMNS, [rowValid]⟩

/-- Raw record of a file missing the member_casual column. -/
def rowNoMemberCol : Row :=
  { ride_id := Cell.str "r1"
    rideable_type := Cell.str "classic_bike"
    started_at := Cell.str "100"
    ended_at := Cell.str "400" }

/-- One-row file content whose column set is missing member_casual. -/
def frameNoMemberCol : Frame :=
  ⟨["ride_id", "rideable_type", "started_at", "ended_at"], [rowNoMemberCol]⟩

/-- The row stored after loading frameValid as "g.csv" at time 9. -/
def storedRowValid : Row :=
  { ride_id := Cell.str "r9"
    rideable_type := Cell.str "classic_bike"
    started_at := Cell.ts 100
    ended_at := Cell.ts 400
    member_casual := Cell.str "member"
    source_file := Cell.str "g.csv"
    loaded_at := Cell.ts 9 }

/-!
Helper lemmas.
-/

theorem fsHas_fsErase_self (fs : FS) (p : String) : fsHas (fsErase fs p) p = false := by
  induction fs with
  | nil => rfl
  | cons e t ih =>
    by_cases h : e.1 = p
    · simpa [fsErase, h] using ih
    · simpa [fsErase, fsHas, h] using ih

theorem fsHas_fsErase_ne (fs : FS) (p q : String) (h : p ≠ q) :
    fsHas (fsErase fs q) p = fsHas fs p := by
  induction fs with
  | nil => rfl
  | cons e t ih =>
    by_cases he : e.1 = q
    · have hqp : ¬ q = p := fun hc => h hc.symm
      simp [fsErase, fsHas, he, hqp, ih]
    · by_cases hp : e.1 = p
      · simp [fsErase, fsHas, he, hp, h]
      · simp [fsErase, fsHas, he, hp, ih]

theorem fsHas_fsWrite_self (fs : FS) (p : String) (b : Bool) :
    fsHas (fsWrite fs p b) p = true := by
  simp [fsWrite, fsHas]

theorem fsHas_fsWrite_ne (fs : FS) (p q : String) (b : Bool) (h : p ≠ q) :
    fsHas (fsWrite fs q b) p = fsHas fs p := by
  have hq : q ≠ p := fun hc => h hc.symm
  simp [fsWrite, fsHas, hq, fsHas_fsErase_ne fs p q h]

theorem downloadFold_keys (nets : String → DlResult) (fs : FS) (l : List String) :
    (downloadFold nets fs l).1.map Prod.fst = l := by
  induction l generalizing fs with
  | nil => rfl
  | cons k ks ih => simp [downloadFold, ih]

theorem drop_indexOfKey (l : List String) (s : String) (h : s ∈ l) :
    ∃ pre, l = pre ++ l.drop (indexOfKey l s) ∧ s ∉ pre ∧
      (l.drop (indexOfKey l s)).head? = some s := by
  induction l with
  | nil => cases h
  | cons k ks ih =>
    by_cases hk : k = s
    · exact ⟨[], by simp [indexOfKey, hk], by simp, by simp [indexOfKey, hk]⟩
    · have hs : s ∈ ks := by
        cases h with
        | head => exact absurd rfl hk
        | tail _ h2 => exact h2
      obtain ⟨pre, hpre, hnot, hhead⟩ := ih hs
      refine ⟨k :: pre, ?_, ?_, ?_⟩
      · simpa [indexOfKey, hk] using congrArg (k :: ·) hpre
      · simp [hnot]
        exact fun hc => hk hc.symm
      · simpa [indexOfKey, hk] using hhead

theorem mem_of_iteFilter {c : Prop} [Decidable c] {r : Row} {p : Row → Bool}
    {l : List Row} (h : r ∈ (if c then l.filter p else l)) : r ∈ l := by
  split at h
  · exact List.mem_of_mem_filter h
  · exact h

theorem coerceStr_isStr (x : Cell) : ∃ s, coerceStr x = Cell.str s := by
  cases x <;> exact ⟨_, rfl⟩

theorem mem_clean_src (pTs pNum : String → Option Int) (f : Frame) (r : Row)
    (h : r ∈ (clean pTs pNum f).rows) :
    ∃ r0, r0 ∈ f.rows ∧
      r = parseNumericCols pNum f.cols
            (parseDatetimeCols pTs f.cols (coerceStringCols f.cols r0)) := by
  by_cases he : f.rows.isEmpty
  · rw [List.isEmpty_iff] at he
    simp [clean, he] at h
  · simp only [clean, he, Bool.false_eq_true, if_false] at h
    have h2 := mem_of_iteFilter (mem_of_iteFilter h)
    have h3 := mem_of_iteFilter (mem_of_iteFilter h2)
    have h4 := mem_of_iteFilter (mem_of_iteFilter h3)
    have h5 := mem_of_iteFilter h4
    rcases List.mem_map.mp h5 with ⟨r1, hr1, hq1⟩
    rcases List.mem_map.mp hr1 with ⟨r2, hr2, hq2⟩
    rcases List.mem_map.mp hr2 with ⟨r0, hr0, hq0⟩
    exact ⟨r0, hr0, by rw [← hq1, ← hq2, ← hq0]⟩

theorem clean_source_file_const (pTs pNum : String → Option Int) (f : Frame) (v : String)
    (hall : ∀ r ∈ f.rows, r.source_file = Cell.str v) :
    ∀ r ∈ (clean pTs pNum f).rows, r.source_file = Cell.str v := by
  intro r hr
  rcases mem_clean_src pTs pNum f r hr with ⟨r0, h0, rfl⟩
  have h0v := hall r0 h0
  simp [parseNumericCols, parseDatetimeCols, coerceStringCols, h0v, coerceStr]

theorem stamped_source_file (chunk : List Row) (cols : List String)
    (filename : String) (now : Cell) :
    ∀ r ∈ (addLoadedAt (addSourceFile ⟨cols, chunk⟩ filename) now).rows,
      r.source_file = Cell.str filename := by
  intro r hr
  simp only [addLoadedAt, addSourceFile] at hr
  rcases List.mem_map.mp hr with ⟨r1, hr1, hq1⟩
  rcases List.mem_map.mp hr1 with ⟨r0, _, hq0⟩
  rw [← hq1, ← hq0]

theorem loadChunks_ok_append (pTs pNum : String → Option Int) (now : Cell)
    (insertFails : Bool) (filename : String) (cols : List String) :
    ∀ (chunks : List (List Row)) (total : Nat) (store store2 : List Row) (n : Nat),
      loadChunks pTs pNum now insertFails filename cols chunks total store
        = Except.ok (n, store2) →
      ∃ new, store2 = store ++ new ∧ n = total + new.length ∧
        ∀ r ∈ new, r.source_file = Cell.str filename := by
  intro chunks
  induction chunks with
  | nil =>
    intro total store store2 n h
    simp only [loadChunks, Except.ok.injEq, Prod.mk.injEq] at h
    exact ⟨[], by simp [← h.2], by simp [← h.1], by simp⟩
  | cons chunk rest ih =>
    intro total store store2 n h
    simp only [loadChunks] at h
    by_cases hz :
      (clean pTs pNum (addLoadedAt (addSourceFile ⟨cols, chunk⟩ filename) now)).rows.length = 0
    · rw [if_pos hz] at h
      exact ih total store store2 n h
    · rw [if_neg hz] at h
      cases hf : insertFails
      · rw [hf] at h ih
        simp only [Bool.false_eq_true, if_false] at h
        rcases ih _ _ _ _ h with ⟨new1, hst, hn, hkey⟩
        refine ⟨(clean pTs pNum (addLoadedAt (addSourceFile ⟨cols, chunk⟩ filename) now)).rows
          ++ new1, ?_, ?_, ?_⟩
        · rw [hst, List.append_assoc]
        · rw [hn, List.length_append]; omega
        · intro r hr
          rcases List.mem_append.mp hr with hl | hl
          · exact clean_source_file_const pTs pNum _ filename
              (stamped_source_file chunk cols filename now) r hl
          · exact hkey r hl
      · rw [hf] at h
        simp at h

theorem loadChunks_no_insert_fail_ok (pTs pNum : String → Option Int) (now : Cell)
    (filename : String) (cols : List String) :
    ∀ (chunks : List (List Row)) (total : Nat) (store : List Row),
      ∃ n store2, loadChunks pTs pNum now false filename cols chunks total store
        = Except.ok (n, store2) := by
  intro chunks
  induction chunks with
  | nil => intro total store; exact ⟨total, store, rfl⟩
  | cons chunk rest ih =>
    intro total store
    simp only [loadChunks]
    by_cases hz :
      (clean pTs pNum (addLoadedAt (addSourceFile ⟨cols, chunk⟩ filename) now)).rows.length = 0
    · rw [if_pos hz]; exact ih _ _
    · rw [if_neg hz]
      simp only [Bool.false_eq_true, if_false]
      exact ih _ _

/-!
Claim theorems.
-/

/-- C10: in download_all a limit of 0 is treated the same as no limit at
all — the candidate list is not truncated and every candidate is fetched —
while every positive limit n attempts exactly the first n candidates of
the listing, in order. -/
theorem C10_download_all_limit (nets : String → DlResult) (fs : FS) (fileLinks : List String) :
    download_all nets fs (some 0) fileLinks = download_all nets fs none fileLinks ∧
    (download_all nets fs (some 0) fileLinks).1.map Prod.fst = fileLinks ∧
    ∀ n : Nat, 0 < n →
      (download_all nets fs (some n) fileLinks).1.map Prod.fst = fileLinks.take n := by
  refine ⟨?_, ?_, ?_⟩
  · simp [download_all, limitLinks, pyTruthy]
  · simp [download_all, limitLinks, pyTruthy, downloadFold_keys]
  · intro n hn
    have hne : (n != 0) = true := by simpa using Nat.pos_iff_ne_zero.mp hn
    simp [download_all, limitLinks, pyTruthy, hne, downloadFold_keys]

/-- Witness for C10 at a concrete two-candidate listing and limit 1. -/
theorem C10_download_all_limit_witness :
    (download_all (fun _ => DlResult.ok) [] (some 1) ["JC1.zip", "JC2.zip"]).1.map Prod.fst
      = ["JC1.zip"] :=
  ((C10_download_all_limit (fun _ => DlResult.ok) [] ["JC1.zip", "JC2.zip"]).2.2 1
    (by decide)).trans (by decide)

/-- C3 counterexample: a download of "JC-1.zip" into an empty directory
that fails mid-transfer returns the per-key error, yet the partially
written ZIP is still on disk — the claimed deletion of the partial file
does not happen. -/
theorem C3_partial_file_counterexample :
    (download_file DlResult.errAfterWrite [] "JC-1.zip").1 = none ∧
    (download_file DlResult.errAfterWrite [] "JC-1.zip").2.1 = [("JC-1.zip", false)] := by
  decide

/-- C3 (amended): on an I/O or HTTP error download_file returns the
per-key error value None, but performs no deletion: when the error struck
after writing began, the partially written ZIP remains on disk, and when
it struck before any byte was written the directory is simply unchanged. -/
theorem C3_error_keeps_partial_file (fs : FS) (name : String)
    (hcsv : fsHas fs (strReplace name ".zip" ".csv") = false)
    (hzip : fsHas fs name = false) :
    (download_file DlResult.errAfterWrite fs name).1 = none ∧
    (download_file DlResult.errAfterWrite fs name).2.1 = fsWrite fs name false ∧
    fsHas (download_file DlResult.errAfterWrite fs name).2.1 name = true ∧
    (download_file DlResult.errBeforeWrite fs name).1 = none ∧
    (download_file DlResult.errBeforeWrite fs name).2.1 = fs := by
  simp [download_file, hcsv, hzip, fsHas_fsWrite_self]

/-- Witness for C3 (amended) at a concrete key and empty directory. -/
theorem C3_error_keeps_partial_file_witness :
    (download_file DlResult.errAfterWrite [] "JC-1.zip").2.1 = fsWrite [] "JC-1.zip" false ∧
    fsHas (download_file DlResult.errAfterWrite [] "JC-1.zip").2.1 "JC-1.zip" = true :=
  ⟨(C3_error_keeps_partial_file [] "JC-1.zip" (by decide) (by decide)).2.1,
   (C3_error_keeps_partial_file [] "JC-1.zip" (by decide) (by decide)).2.2.1⟩

/-- C8: extract_zip deletes the compressed input exactly when it
succeeds: every error outcome (missing input, no payload member,
extraction failure) returns None and leaves the directory — in particular
the ZIP — exactly as it was, while every success returns the canonical
decompressed name and has removed the ZIP from disk. -/
theorem C8_extract_zip_delete_iff_success (fs : FS) (zipPath : String)
    (members : List String) (ok : Bool) :
    ((extract_zip fs zipPath members ok).1 = none →
      (extract_zip fs zipPath members ok).2 = fs) ∧
    ∀ p, (extract_zip fs zipPath members ok).1 = some p →
      p = strReplace zipPath ".zip" ".csv" ∧
      fsHas (extract_zip fs zipPath members ok).2 zipPath = false := by
  by_cases h1 : fsHas fs zipPath
  · by_cases h2 : fsHas fs (strReplace zipPath ".zip" ".csv")
    · constructor
      · intro hnone; simp [extract_zip, h1, h2] at hnone
      · intro p hp
        simp only [extract_zip, h1] at hp ⊢
        simp only [h2] at hp ⊢
        simp at hp
        exact ⟨hp.symm, by simp [fsHas_fsErase_self]⟩
    · cases hm : members.filter (fun n => strEndsWith n ".csv" && !strStartsWith n "__MACOSX") with
      | nil =>
        constructor
        · intro _; simp [extract_zip, h1, h2, hm]
        · intro p hp; simp [extract_zip, h1, h2, hm] at hp
      | cons m rest =>
        cases ok with
        | true =>
          constructor
          · intro hnone; simp [extract_zip, h1, h2, hm] at hnone
          · intro p hp
            simp only [extract_zip, h1, h2, hm] at hp ⊢
            simp at hp
            exact ⟨hp.symm, by simp [fsHas_fsErase_self]⟩
        | false =>
          constructor
          · intro _; simp [extract_zip, h1, h2, hm]
          · intro p hp; simp [extract_zip, h1, h2, hm] at hp
  · constructor
    · intro _; simp [extract_zip, h1]
    · intro p hp; simp [extract_zip, h1] at hp

/-- Witness for C8 at a concrete archive holding a junk-metadata member
and a payload member, with a successful extraction. -/
theorem C8_extract_zip_delete_iff_success_witness :
    ("a.csv" : String) = strReplace "a.zip" ".zip" ".csv" ∧
    fsHas (extract_zip [("a.zip", true)] "a.zip" ["__MACOSX/j.csv", "inner.csv"] true).2 "a.zip"
      = false :=
  (C8_extract_zip_delete_iff_success [("a.zip", true)] "a.zip"
    ["__MACOSX/j.csv", "inner.csv"] true).2 "a.csv" (by decide)

/-- C7: fetch is idempotent. If a first call to download_file returns an
artifact path, a second call with no intervening deletion returns the very
same path and the two calls together perform at most one HTTP transfer;
and when the decompressed CSV already exists locally the call returns it
with zero transfers. -/
theorem C7_fetch_idempotent (fs : FS) (name : String) (net1 net2 : DlResult) :
    (fsHas fs (strReplace name ".zip" ".csv") = true →
      (download_file net1 fs name).1 = some (strReplace name ".zip" ".csv") ∧
      (download_file net1 fs name).2.2 = 0) ∧
    ∀ p, (download_file net1 fs name).1 = some p →
      (download_file net2 (download_file net1 fs name).2.1 name).1 = some p ∧
      (download_file net1 fs name).2.2 + (download_file net2 (download_file net1 fs name).2.1 name).2.2 ≤ 1 := by
  constructor
  · intro h; simp [download_file, h]
  · intro p hp
    by_cases h1 : fsHas fs (strReplace name ".zip" ".csv")
    · simp only [download_file, h1, if_true] at hp ⊢
      simp at hp
      simp [← hp, download_file, h1]
    · by_cases h2 : fsHas fs name
      · simp only [download_file, h1, h2] at hp ⊢
        simp at hp
        simp [← hp, download_file, h1, h2]
      · cases net1 with
        | ok =>
          simp only [download_file, h1, h2] at hp ⊢
          simp at hp
          by_cases hcz : strReplace name ".zip" ".csv" = name
          · have hw : fsHas (fsWrite fs name true) (strReplace name ".zip" ".csv") = true := by
              simpa [hcz] using fsHas_fsWrite_self fs name true
            simp [← hp, download_file, hw, hcz, fsHas_fsWrite_self]
          · have hwc : fsHas (fsWrite fs name true) (strReplace name ".zip" ".csv") = false := by
              simpa [fsHas_fsWrite_ne fs (strReplace name ".zip" ".csv") name true hcz] using h1
            simp [← hp, download_file, hwc, fsHas_fsWrite_self]
        | errAfterWrite => simp [download_file, h1, h2] at hp
        | errBeforeWrite => simp [download_file, h1, h2] at hp

/-- C2: get_file_links filters the listing to keys with the "JC" name
prefix and ".zip" suffix preserving order, and applies the cursor: when
the configured start key occurs in the filtered list the result is exactly
the suffix of the filtered list from that key onward, inclusive — the
filtered list splits as a front part not containing the key followed by
the result, whose head is the key — and when it does not occur the result
is empty. -/
theorem C2_get_file_links_cursor (keys : List String) (startFrom : String) :
    (startFrom ∈ filterKeys keys →
      ∃ pre, filterKeys keys = pre ++ get_file_links startFrom keys ∧
        startFrom ∉ pre ∧
        (get_file_links startFrom keys).head? = some startFrom) ∧
    (startFrom ∉ filterKeys keys → get_file_links startFrom keys = []) := by
  constructor
  · intro h
    have := drop_indexOfKey (filterKeys keys) startFrom h
    simpa [get_file_links, h] using this
  · intro h
    simp [get_file_links, h]

/-- Witness for C2 at the listing of Scenario A: keys A.zip, JC1.zip,
JC2.zip, JC3.zip with cursor JC2.zip. -/
theorem C2_get_file_links_cursor_witness :
    ∃ pre, filterKeys ["A.zip", "JC1.zip", "JC2.zip", "JC3.zip"]
        = pre ++ get_file_links "JC2.zip" ["A.zip", "JC1.zip", "JC2.zip", "JC3.zip"] ∧
      "JC2.zip" ∉ pre ∧
      (get_file_links "JC2.zip" ["A.zip", "JC1.zip", "JC2.zip", "JC3.zip"]).head?
        = some "JC2.zip" :=
  (C2_get_file_links_cursor ["A.zip", "JC1.zip", "JC2.zip", "JC3.zip"] "JC2.zip").1
    (by decide)

/-- Witness for C7: key "JC-1.zip" fetched into an empty directory with a
successful first transfer, then fetched again. -/
theorem C7_fetch_idempotent_witness :
    (download_file DlResult.ok
      (download_file DlResult.ok [] "JC-1.zip").2.1 "JC-1.zip").1 = some "JC-1.zip" ∧
    (download_file DlResult.ok [] "JC-1.zip").2.2 +
      (download_file DlResult.ok
        (download_file DlResult.ok [] "JC-1.zip").2.1 "JC-1.zip").2.2 ≤ 1 :=
  (C7_fetch_idempotent [] "JC-1.zip" DlResult.ok DlResult.ok).2 "JC-1.zip" (by decide)

/-- C6: the cleaner replaces missing values in string columns by the
empty string, and in the cleaned output every string-typed column that is
present in the input columns holds a text value on every surviving row —
never the missing sentinel. -/
theorem C6_string_fields_text (pTs pNum : String → Option Int) (f : Frame)
    (c : String) (r : Row) (hc : c ∈ STRING_COLUMNS)
    (hpres : f.cols.contains c = true) (hr : r ∈ (clean pTs pNum f).rows) :
    coerceStr Cell.na = Cell.str "" ∧ ∃ s, getField c r = Cell.str s := by
  refine ⟨rfl, ?_⟩
  rcases mem_clean_src pTs pNum f r hr with ⟨r0, _, rfl⟩
  simp only [STRING_COLUMNS, List.mem_cons, List.not_mem_nil, or_false] at hc
  rcases hc with rfl | rfl | rfl | rfl | rfl | rfl | rfl | rfl <;>
    simp at hpres <;>
    simp [getField, parseNumericCols, parseDatetimeCols, coerceStringCols, hpres] <;>
    exact coerceStr_isStr _

/-- Witness for C6 at a concrete batch: the surviving row of frameValid
holds a text value in its member_casual column. -/
theorem C6_string_fields_text_witness :
    coerceStr Cell.na = Cell.str "" ∧
    ∃ s, getField "member_casual"
      (parseNumericCols pTsEx REQUIRED_COLUMNS
        (parseDatetimeCols pTsEx REQUIRED_COLUMNS
          (coerceStringCols REQUIRED_COLUMNS rowValid))) = Cell.str s :=
  C6_string_fields_text pTsEx pTsEx frameValid "member_casual"
    (parseNumericCols pTsEx REQUIRED_COLUMNS
      (parseDatetimeCols pTsEx REQUIRED_COLUMNS
        (coerceStringCols REQUIRED_COLUMNS rowValid)))
    (by decide) (by decide) (by decide)

/-- C1 (behaviour at the failing input): a batch holding one record whose
ride_id is missing but which is otherwise valid is not dropped by clean —
the fillna of the string columns runs before the required-field filter, so
the record survives with ride_id coerced to the empty string, although the
claim and the required-field rule say it is dropped. -/
theorem C1_missing_ride_id_not_dropped :
    frameNoRideId.rows.map (getField "ride_id") = [Cell.na] ∧
    (clean pTsEx pTsEx frameNoRideId).rows.length = 1 ∧
    (clean pTsEx pTsEx frameNoRideId).rows.map (getField "ride_id") = [Cell.str ""] := by
  decide

/-- C4 counterexample: a one-row file whose column set is missing the
required column member_casual fails validate_schema, yet
load_csv_to_clickhouse does not abort: it returns success with one row
written to the store. -/
theorem C4_missing_column_loaded_counterexample :
    validate_schema frameNoMemberCol.cols = false ∧
    (load_csv_to_clickhouse pTsEx pTsEx (Cell.ts 999) false false []
        frameNoMemberCol "f.csv" 10000 true).toOption.map (fun p => (p.1, p.2.length))
      = some (1, 1) := by
  decide

/-- C4 (amended): validate_schema is true exactly when every required
column is present, but the per-file load never invokes any schema gate:
whenever the store insert itself does not fail, load_csv_to_clickhouse
returns success — for files missing required columns just as for complete
ones — so no schema-validation abort happens before rows are written. -/
theorem C4_no_schema_gate (cols : List String) (pTs pNum : String → Option Int)
    (now : Cell) (dupCheckFails : Bool) (store : List Row) (csv : Frame)
    (filename : String) (batchSize : Nat) (skipDuplicates : Bool) :
    (validate_schema cols = true ↔ ∀ c ∈ REQUIRED_COLUMNS, cols.contains c = true) ∧
    ∃ n store2, load_csv_to_clickhouse pTs pNum now false dupCheckFails store csv
        filename batchSize skipDuplicates = Except.ok (n, store2) := by
  constructor
  · simp [validate_schema, List.all_eq_true]
  · unfold load_csv_to_clickhouse
    by_cases h : (skipDuplicates && check_file_already_loaded dupCheckFails store filename) = true
    · rw [if_pos h]; exact ⟨0, store, rfl⟩
    · rw [if_neg h]
      exact loadChunks_no_insert_fail_ok pTs pNum now filename csv.cols
        (chunksOf batchSize csv.rows) 0 store

/-- Witness for C4 (amended) at the concrete file missing member_casual. -/
theorem C4_no_schema_gate_witness :
    (validate_schema frameNoMemberCol.cols = true ↔
      ∀ c ∈ REQUIRED_COLUMNS, frameNoMemberCol.cols.contains c = true) ∧
    ∃ n store2, load_csv_to_clickhouse pTsEx pTsEx (Cell.ts 999) false false []
        frameNoMemberCol "f.csv" 10000 true = Except.ok (n, store2) :=
  C4_no_schema_gate frameNoMemberCol.cols pTsEx pTsEx (Cell.ts 999) false []
    frameNoMemberCol "f.csv" 10000 true

/-- C5: loading a file twice in sequence with skip_duplicates on, against
a store that did not contain the file before, inserts the cleaned rows —
all stamped with the file name — on the first call, and on the second call
the duplicate check finds them, zero rows are inserted, the store is
unchanged and the call returns 0. -/
theorem C5_duplicate_skip (pTs pNum : String → Option Int) (now : Cell)
    (store store1 : List Row) (csv : Frame) (filename : String)
    (batchSize n : Nat)
    (hfirst : load_csv_to_clickhouse pTs pNum now false false store csv filename
        batchSize true = Except.ok (n, store1))
    (hn : 0 < n)
    (hnew : check_file_already_loaded false store filename = false) :
    (∃ new, store1 = store ++ new ∧ new.length = n ∧
      ∀ r ∈ new, r.source_file = Cell.str filename) ∧
    check_file_already_loaded false store1 filename = true ∧
    load_csv_to_clickhouse pTs pNum now false false store1 csv filename
        batchSize true = Except.ok (0, store1) := by
  rw [load_csv_to_clickhouse, hnew, Bool.and_false, if_neg (by simp)] at hfirst
  rcases loadChunks_ok_append pTs pNum now false filename csv.cols
    (chunksOf batchSize csv.rows) 0 store store1 n hfirst with ⟨new, hst, hlen, hkey⟩
  have hlen2 : new.length = n := by omega
  have hne : new ≠ [] := by
    intro hnil
    rw [hnil] at hlen2
    simp at hlen2
    omega
  have hcheck : check_file_already_loaded false store1 filename = true := by
    rcases List.exists_mem_of_ne_nil new hne with ⟨r, hrmem⟩
    have hkeyr := hkey r hrmem
    rw [check_file_already_loaded]
    simp only [if_false, Bool.false_eq_true]
    rw [List.any_eq_true]
    refine ⟨r, ?_, ?_⟩
    · rw [hst]; exact List.mem_append_right store hrmem
    · simp [sourceFileVal, hkeyr]
  refine ⟨⟨new, hst, hlen2, hkey⟩, hcheck, ?_⟩
  rw [load_csv_to_clickhouse, hcheck]
  simp

/-- Witness for C5: frameValid loaded twice as "g.csv" into an initially
empty store. -/
theorem C5_duplicate_skip_witness :
    (∃ new, [storedRowValid] = [] ++ new ∧ new.length = 1 ∧
      ∀ r ∈ new, r.source_file = Cell.str "g.csv") ∧
    check_file_already_loaded false [storedRowValid] "g.csv" = true ∧
    load_csv_to_clickhouse pTsEx pTsEx (Cell.ts 9) false false [storedRowValid]
        frameValid "g.csv" 10000 true = Except.ok (0, [storedRowValid]) :=
  C5_duplicate_skip pTsEx pTsEx (Cell.ts 9) [] [storedRowValid] frameValid "g.csv"
    10000 1 (by rfl) (by decide) (by decide)

/-- C9: when the store query inside the duplicate check raises, the check
returns false — it fails open — so with skip_duplicates on the load
behaves exactly as if skip_duplicates were off, and a successful run
appends its cleaned rows, all stamped with this file name, to whatever the
store already holds; a file whose rows are already present is therefore
loaded a second time. -/
theorem C9_dup_check_fails_open (pTs pNum : String → Option Int) (now : Cell)
    (insertFails : Bool) (store : List Row) (csv : Frame) (filename : String)
    (batchSize : Nat) :
    check_file_already_loaded true store filename = false ∧
    load_csv_to_clickhouse pTs pNum now insertFails true store csv filename
        batchSize true
      = load_csv_to_clickhouse pTs pNum now insertFails true store csv filename
        batchSize false ∧
    ∀ n store2,
      load_csv_to_clickhouse pTs pNum now insertFails true store csv filename
          batchSize true = Except.ok (n, store2) →
      ∃ new, store2 = store ++ new ∧ new.length = n ∧
        ∀ r ∈ new, r.source_file = Cell.str filename := by
  refine ⟨rfl, by simp [load_csv_to_clickhouse, check_file_already_loaded], ?_⟩
  intro n store2 h
  rw [load_csv_to_clickhouse] at h
  simp only [check_file_already_loaded, if_true, Bool.and_false] at h
  rw [if_neg (by simp)] at h
  rcases loadChunks_ok_append pTs pNum now insertFails filename csv.cols
    (chunksOf batchSize csv.rows) 0 store store2 n h with ⟨new, hst, hlen, hkey⟩
  exact ⟨new, hst, by omega, hkey⟩

/-- Witness for C9: the store already holds the row of "g.csv", the
query-side of the duplicate check raises, and loading frameValid as
"g.csv" again duplicates the row. -/
theorem C9_dup_check_fails_open_witness :
    ∃ new, [storedRowValid, storedRowValid] = [storedRowValid] ++ new ∧
      new.length = 1 ∧ ∀ r ∈ new, r.source_file = Cell.str "g.csv" :=
  (C9_dup_check_fails_open pTsEx pTsEx (Cell.ts 9) false [storedRowValid]
    frameValid "g.csv" 10000).2.2 1 [storedRowValid, storedRowValid] (by rfl)
